import Mathlib

/-!
Verification development for the code-police repository.

The repository's `src/backend` holds two Express entry points
(`index.js`, `server.js`); their route handlers are embedded directly.
The orchestration pipeline described by the specification (orchestrator,
retry executor, idempotency store, analyzer, fix planner, publisher,
notifier) has no source under `src/`, so those components are modelled
from the specification text, as marked on each definition.
-/

namespace Backend

/-- An HTTP request as seen by an Express handler: method, path,
headers, query parameters and a raw body. -/
structure Request where
  method : String
  path : String
  headers : List (String × String)
  params : List (String × String)
  body : String
  deriving Repr, DecidableEq

/-- An HTTP response: status code and a flat JSON object body
(key/value pairs, as produced by `res.json`). -/
structure Response where
  status : Nat
  json : List (String × String)
  deriving Repr, DecidableEq

/-- Embedding of the `app.get('/api/hello')` handler in
`src/backend/index.js`: `res.json({ message: 'Hello from server' })`.
`res.json` replies with status 200. -/
def helloHandler (_req : Request) : Response :=
  { status := 200, json := [("message", "Hello from server")] }

/-- Embedding of the `app.get('/status')` handler in
`src/backend/server.js`: `res.json({ status: 'Server is running smoothly!' })`.
`res.json` replies with status 200. -/
def statusHandler (_req : Request) : Response :=
  { status := 200, json := [("status", "Server is running smoothly!")] }

end Backend

namespace Pipeline

/-- Modelled from the spec: failure classification for the Retry
Executor (§4.2, §7); the executor's source is not under `src/`.
HTTP 429, 5xx and network timeouts are retryable; other 4xx and
schema/validation failures are fatal. -/
inductive Failure where
  | http (code : Nat)
  | timeout
  | schemaValidation
  deriving Repr, DecidableEq

/-- Modelled from the spec: a failure is retryable iff it is HTTP 429,
an HTTP 5xx, or a network timeout. -/
def Failure.retryable : Failure → Bool
  | .http code => code == 429 || (500 ≤ code && code ≤ 599)
  | .timeout => true
  | .schemaValidation => false

/-- Outcome of one attempt of an external call. -/
inductive CallResult (α : Type) where
  | success (value : α)
  | failure (f : Failure)
  deriving Repr, DecidableEq

/-- What the Retry Executor reports back, together with the observable
trace: how many attempts were made and the delays (in seconds) slept
between consecutive attempts. -/
structure ExecOutcome (α : Type) where
  result : Except Failure α
  attempts : Nat
  delays : List Nat
  deriving Repr

/-- Modelled from the spec: the Retry Executor's backoff schedule,
"delays 1s/2s/4s (exponential, base 2, x1s)": the delay slept after the
k-th failed attempt is 2^(k-1) seconds. -/
def backoffDelay (attempt : Nat) : Nat := 2 ^ (attempt - 1)

/-- Modelled from the spec: the Retry Executor (§4.2), whose source is
not under `src/`. `call i` is the result of the i-th attempt (1-based).
At most `maxAttempts` attempts; a retryable failure with attempts left
sleeps the backoff delay and retries; a fatal failure or exhaustion is
surfaced as a terminal failure. -/
def retryExecAux {α : Type} (call : Nat → CallResult α)
    (maxAttempts attempt : Nat) (delaysSoFar : List Nat)
    (fuel : Nat) : ExecOutcome α :=
  match fuel with
  | 0 => { result := .error .timeout, attempts := attempt - 1, delays := delaysSoFar }
  | fuel + 1 =>
    match call attempt with
    | .success v => { result := .ok v, attempts := attempt, delays := delaysSoFar }
    | .failure f =>
      if f.retryable && attempt < maxAttempts then
        retryExecAux call maxAttempts (attempt + 1)
          (delaysSoFar ++ [backoffDelay attempt]) fuel
      else
        { result := .error f, attempts := attempt, delays := delaysSoFar }

/-- Modelled from the spec: run an external call under the Retry
Executor policy of exactly 3 attempts. -/
def retryExec {α : Type} (call : Nat → CallResult α) : ExecOutcome α :=
  retryExecAux call 3 1 [] 3

/-- Modelled from the spec: the three scheduled backoff delays, one
gap per possible retry under the 1s/2s/4s policy. -/
def backoffSchedule : List Nat := [1, 2, 4]

/-- A call that times out on every attempt. -/
def callAllTimeout : Nat → CallResult Nat := fun _ => CallResult.failure Failure.timeout

/-- A call that fails fatally (HTTP 404) on every attempt. -/
def callFatal404 : Nat → CallResult Nat := fun _ => CallResult.failure (Failure.http 404)

/-- A call that fails retryably (HTTP 500) on the first attempt and
fatally (HTTP 404) on every later attempt. -/
def callRetryableThenFatal : Nat → CallResult Nat := fun n =>
  if n == 1 then CallResult.failure (Failure.http 500)
  else CallResult.failure (Failure.http 404)

/-- Modelled from the spec: a fix proposal (§3), one per fixable issue;
the Fix Planner's source is not under `src/`. -/
structure FixProposal where
  issueId : Nat
  file : String
  originalCode : String
  fixedCode : String
  startLine : Nat
  endLine : Nat
  explanation : String
  deriving Repr, DecidableEq

/-- Two proposals' line ranges overlap when neither ends before the
other starts. -/
def overlaps (p q : FixProposal) : Bool :=
  p.startLine ≤ q.endLine && q.startLine ≤ p.endLine

/-- Modelled from the spec: the unit actually committed (§3): one path,
one consolidated body, and the fixes that were applied to produce it. -/
structure ConsolidatedFile where
  path : String
  content : String
  appliedFixes : List FixProposal
  deriving Repr, DecidableEq

/-- Issue ids applied in a consolidated file, in application order. -/
def ConsolidatedFile.appliedIssueIds (cf : ConsolidatedFile) : List Nat :=
  cf.appliedFixes.map (·.issueId)

/-- Ordering of proposals used by consolidation: ascending start line. -/
def byStartLine (p q : FixProposal) : Prop :=
  p.startLine ≤ q.startLine

instance : DecidableRel byStartLine := fun p q =>
  inferInstanceAs (Decidable (p.startLine ≤ q.startLine))

instance : IsTotal FixProposal byStartLine :=
  ⟨fun p q => Nat.le_total p.startLine q.startLine⟩

instance : IsTrans FixProposal byStartLine :=
  ⟨fun _ _ _ h1 h2 => Nat.le_trans h1 h2⟩

/-- Modelled from the spec: proposals for one file are processed sorted
by `startLine` ascending (§4.5). -/
def sortByStart (l : List FixProposal) : List FixProposal :=
  l.insertionSort byStartLine

/-- Modelled from the spec: overlap resolution (§4.5). A proposal is
accepted against the fixes already kept; on overlap the later-proposed
fix (by issue id ordering) wins and the earlier one is superseded. -/
def insertFix (acc : List FixProposal) (p : FixProposal) : List FixProposal :=
  if (acc.filter (fun q => overlaps p q)).all (fun q => q.issueId < p.issueId) then
    acc.filter (fun q => !overlaps p q) ++ [p]
  else
    acc

/-- Splice one accepted fix into a file body given as a list of lines:
lines `startLine..endLine` (1-based) are replaced by the fixed code. -/
def applyFix (fileLines : List String) (p : FixProposal) : List String :=
  fileLines.take (p.startLine - 1) ++ [p.fixedCode] ++ fileLines.drop p.endLine

/-- Modelled from the spec: non-overlapping fixes are spliced into the
original file content in range order (§4.5); applying them from the
bottom up keeps earlier line numbers valid. -/
def spliceFixes (original : String) (fixes : List FixProposal) : String :=
  String.intercalate "\n" (((sortByStart fixes).reverse).foldl applyFix (original.splitOn "\n"))

/-- Modelled from the spec: consolidate the proposals of one file
(§4.5): sort by start line, then resolve overlaps in favour of the
later issue id, then splice. -/
def consolidateFile (path : String) (original : String)
    (proposals : List FixProposal) : ConsolidatedFile :=
  let mine := proposals.filter (fun p => p.file == path)
  let applied := (sortByStart mine).foldl insertFix []
  { path := path, content := spliceFixes original applied, appliedFixes := applied }

/-- Modelled from the spec: the consolidation entry point (§4.5): one
ConsolidatedFile per file that has at least one proposal. `originals`
gives each file's pre-fix content. -/
def consolidate (originals : String → String)
    (proposals : List FixProposal) : List ConsolidatedFile :=
  ((proposals.map (·.file)).dedup).map
    (fun f => consolidateFile f (originals f) proposals)

/-- Modelled from the spec: a candidate issue as parsed from the LLM
response (§4.4), before validation: every field may be absent. -/
structure CandidateIssue where
  id : Option Nat
  severity : Option String
  issueType : Option String
  file : Option String
  line : Option Nat
  column : Option Nat
  description : Option String
  suggestion : Option String
  fixable : Option Bool
  deriving Repr, DecidableEq

/-- Modelled from the spec: a validated issue (§3); every field present. -/
structure Issue where
  id : Nat
  severity : String
  issueType : String
  file : String
  line : Nat
  column : Nat
  description : String
  suggestion : String
  fixable : Bool
  deriving Repr, DecidableEq

/-- Modelled from the spec: the enumerated severity set; the spec fixes
the set's existence but not its members, so representative members are
used. -/
def validSeverities : List String := ["low", "medium", "high", "critical"]

/-- Modelled from the spec: the enumerated issue-type set; the spec
fixes the set's existence but not its members, so representative
members are used. -/
def validTypes : List String := ["bug", "vulnerability", "style", "performance"]

/-- Modelled from the spec: parse-then-validate of one candidate issue
(§4.4, §9): every required field must be present and severity/type must
lie in the enumerated sets, else the candidate is dropped (`none`);
nothing is defaulted. -/
def validateIssue (c : CandidateIssue) : Option Issue := do
  let id ← c.id
  let sev ← c.severity
  let ty ← c.issueType
  let file ← c.file
  let line ← c.line
  let column ← c.column
  let description ← c.description
  let suggestion ← c.suggestion
  let fixable ← c.fixable
  if validSeverities.contains sev && validTypes.contains ty then
    pure ⟨id, sev, ty, file, line, column, description, suggestion, fixable⟩
  else
    none

/-- Modelled from the spec: parse a whole LLM response: invalid
candidates are dropped individually, valid ones retained in order. -/
def parseIssues (resp : List CandidateIssue) : List Issue :=
  resp.filterMap validateIssue

/-- Modelled from the spec: a job's lifecycle status (§3). -/
inductive Status where
  | pending
  | fetching
  | analyzing
  | fixing
  | publishing
  | notifying
  | completed
  | failed
  deriving Repr, DecidableEq

/-- Position of a status in the forward pipeline order; `failed` sits
outside the forward chain and is given the largest index. -/
def Status.idx : Status → Nat
  | .pending => 0
  | .fetching => 1
  | .analyzing => 2
  | .fixing => 3
  | .publishing => 4
  | .notifying => 5
  | .completed => 6
  | .failed => 7

/-- Terminal statuses: no further automatic transition occurs. -/
def Status.isTerminal : Status → Bool
  | .completed => true
  | .failed => true
  | _ => false

/-- The immediate forward successor of a status. -/
def nextStatus : Status → Status
  | .pending => .fetching
  | .fetching => .analyzing
  | .analyzing => .fixing
  | .fixing => .publishing
  | .publishing => .notifying
  | .notifying => .completed
  | .completed => .completed
  | .failed => .failed

/-- Modelled from the spec: a job record (§3), restricted to the fields
the transition function reads and writes. -/
structure Job where
  id : Nat
  repositoryId : Nat
  status : Status
  retryCount : Nat
  errorMessage : Option String
  deriving Repr, DecidableEq

/-- Result a stage reports to the Orchestrator: success, or a fatal
failure with a message. -/
inductive StageOutcome where
  | success
  | failure (msg : String)
  deriving Repr, DecidableEq

/-- Modelled from the spec: the per-job retry budget, default 3. -/
def retryBudget : Nat := 3

/-- Modelled from the spec: the Orchestrator's single authoritative
transition function (§4.1); its source is not under `src/`. A terminal
job is never advanced; a successful stage moves the status strictly
forward; a failed stage consumes retry budget and, once the budget is
exhausted, moves the job to `failed` with the error recorded. -/
def advance (j : Job) (o : StageOutcome) : Job :=
  if j.status.isTerminal then j
  else
    match o with
    | .success => { j with status := nextStatus j.status }
    | .failure msg =>
      if retryBudget ≤ j.retryCount + 1 then
        { j with status := .failed, retryCount := j.retryCount + 1,
                 errorMessage := some msg }
      else
        { j with retryCount := j.retryCount + 1 }

/-- Modelled from the spec: an idempotency record (§3): one external
effect of one job, with a reference to its result. -/
structure IdempotencyRecord where
  jobId : Nat
  effectKey : String
  completedAt : Nat
  resultRef : String
  deriving Repr, DecidableEq

/-- Find the record of a (jobId, effectKey) pair, if any. -/
def lookupRec (s : List IdempotencyRecord) (jobId : Nat) (key : String) :
    Option IdempotencyRecord :=
  s.find? (fun r => r.jobId == jobId && r.effectKey == key)

/-- What a conditional write reports: the record was inserted and the
effect must be performed, or a record already existed and the effect is
already done. -/
inductive PutResult where
  | inserted
  | alreadyDone (existing : IdempotencyRecord)
  deriving Repr, DecidableEq

/-- Modelled from the spec: the conditional insert-if-absent write to
the Idempotency Store (§5, §6). -/
def putIfAbsent (s : List IdempotencyRecord) (r : IdempotencyRecord) :
    List IdempotencyRecord × PutResult :=
  match lookupRec s r.jobId r.effectKey with
  | some existing => (s, .alreadyDone existing)
  | none => (r :: s, .inserted)

/-- States of the Idempotency Store reachable from the empty store by
conditional writes. -/
inductive ReachableStore : List IdempotencyRecord → Prop where
  | empty : ReachableStore []
  | put (s : List IdempotencyRecord) (r : IdempotencyRecord) :
      ReachableStore s → ReachableStore (putIfAbsent s r).1

/-- The idempotency key under which a job's branch creation is recorded. -/
def branchKey (jobId : Nat) : String := "branch:" ++ toString jobId

/-- The idempotency key under which a job's PR creation is recorded. -/
def prKey (jobId : Nat) : String := "pr:" ++ toString jobId

/-- An externally visible Git-host side effect of publishing. -/
inductive GitEffect where
  | createBranch (name : String)
  | openPullRequest (url : String)
  deriving Repr, DecidableEq

/-- What one publish run produced: the store afterwards, the external
effects actually performed, and the branch/PR references in use. -/
structure PublishOut where
  store : List IdempotencyRecord
  effects : List GitEffect
  branchRef : String
  prRef : String
  deriving Repr, DecidableEq

/-- Modelled from the spec: the PR Publisher's idempotent effect
discipline (§4.6); its source is not under `src/`. Branch creation and
PR creation are each guarded by the Idempotency Store: a recorded
effect is reused, an unrecorded one is performed and recorded. -/
def publish (jobId now : Nat) (branchName prUrl : String)
    (s0 : List IdempotencyRecord) : PublishOut :=
  let step1 :=
    match lookupRec s0 jobId (branchKey jobId) with
    | some r => (s0, ([] : List GitEffect), r.resultRef)
    | none =>
      ((putIfAbsent s0 ⟨jobId, branchKey jobId, now, branchName⟩).1,
        [GitEffect.createBranch branchName], branchName)
  let step2 :=
    match lookupRec step1.1 jobId (prKey jobId) with
    | some r => (step1.1, ([] : List GitEffect), r.resultRef)
    | none =>
      ((putIfAbsent step1.1 ⟨jobId, prKey jobId, now, prUrl⟩).1,
        [GitEffect.openPullRequest prUrl], prUrl)
  { store := step2.1, effects := step1.2.1 ++ step2.2.1,
    branchRef := step1.2.2, prRef := step2.2.2 }

/-- Modelled from the spec: the error reported when the base branch has
diverged before branch/PR creation (§4.6): conflicting file plus base
and head SHAs. -/
structure ConflictError where
  conflictingFile : String
  baseSha : String
  headSha : String
  deriving Repr, DecidableEq

/-- What the Git host does when asked to create the branch/PR: succeed
with a PR URL, or report that the base has diverged. -/
inductive HostOutcome where
  | ok (prUrl : String)
  | diverged (conflictingFile baseSha headSha : String)
  deriving Repr, DecidableEq

/-- Modelled from the spec: branch/PR creation outcome as the Publisher
reports it: a PR reference, or a ConflictError carrying the host's
conflict details. -/
def publishResult (h : HostOutcome) : Except ConflictError String :=
  match h with
  | .ok url => .ok url
  | .diverged f b hd => .error ⟨f, b, hd⟩

/-- A publish-stage failure: a detected merge conflict, or an external
call failure. -/
inductive PublishFailure where
  | conflict (e : ConflictError)
  | external (f : Failure)
  deriving Repr, DecidableEq

/-- Modelled from the spec: whether a publish failure is retried
automatically — conflicts never are (§4.6); external failures follow
the Retry Executor classification. -/
def PublishFailure.retryableFailure : PublishFailure → Bool
  | .conflict _ => false
  | .external f => f.retryable

/-- Modelled from the spec: an analysis report (§3). -/
structure AnalysisReport where
  id : Nat
  repositoryId : Nat
  commitSha : String
  branch : String
  timestampSec : Nat
  issues : List Issue
  summary : String
  deriving Repr, DecidableEq

/-- Modelled from the spec: an LLM analysis response is an array of
candidate issue objects, or malformed. -/
inductive LlmResponse where
  | issuesArray (items : List CandidateIssue)
  | malformed
  deriving Repr, DecidableEq

/-- Modelled from the spec: the Analyzer stage verdict (§4.4): a
malformed response is a (validation) failure; a well-formed array is a
success, whatever the number of issues that survive validation. -/
def analyzeStage (resp : LlmResponse) : StageOutcome :=
  match resp with
  | .malformed => .failure "schema validation failed"
  | .issuesArray _ => .success

/-- Modelled from the spec: the three notification outcomes (§4.7). -/
inductive NotifyOutcome where
  | issuesFound
  | zeroIssues
  | publishConflict (e : ConflictError)
  deriving Repr, DecidableEq

/-- Modelled from the spec: which outcome the Notification Dispatcher
sends (§4.4, §4.7): zero issues drives the success path; a publish
conflict drives the conflict path; otherwise issues were found. -/
def notifyOutcome (report : AnalysisReport)
    (pub : Option (Except ConflictError String)) : NotifyOutcome :=
  if report.issues.isEmpty then .zeroIssues
  else
    match pub with
    | some (.error e) => .publishConflict e
    | _ => .issuesFound

/-- A job's final, human-visible state. -/
inductive FinalStatus where
  | completed
  | completedWithWarning
  | failed
  deriving Repr, DecidableEq

/-- Modelled from the spec: the final job state after the notify stage
(§4.7, §8): a publish conflict ends Completed-with-warning; otherwise
the job completes, with a warning when notification delivery failed. -/
def finalizeJob (outcome : NotifyOutcome) (notifyDelivered : Bool) : FinalStatus :=
  match outcome with
  | .publishConflict _ => .completedWithWarning
  | _ => if notifyDelivered then .completed else .completedWithWarning

/-- A job already in the terminal `failed` state. -/
def failedJob : Job :=
  { id := 1, repositoryId := 1, status := .failed, retryCount := 3,
    errorMessage := some "budget exhausted" }

/-- A report with no issues. -/
def emptyReport : AnalysisReport :=
  { id := 1, repositoryId := 1, commitSha := "abc", branch := "main",
    timestampSec := 0, issues := [], summary := "clean" }

/-- A validated issue used as concrete input. -/
def goodIssue : Issue :=
  ⟨1, "high", "bug", "a.py", 10, 1, "desc", "sugg", true⟩

/-- A report with one issue. -/
def oneIssueReport : AnalysisReport :=
  { id := 2, repositoryId := 1, commitSha := "abc", branch := "main",
    timestampSec := 0, issues := [goodIssue], summary := "one issue" }

/-- A candidate with every required field present and valid enums. -/
def goodCandidate : CandidateIssue :=
  ⟨some 1, some "high", some "bug", some "a.py", some 10, some 1,
    some "desc", some "sugg", some true⟩

/-- A candidate missing its required description field. -/
def badCandidate : CandidateIssue :=
  ⟨some 2, some "high", some "bug", some "a.py", some 12, some 1,
    none, some "sugg", some false⟩

/-- An idempotency record for the PR of job 7. -/
def recA : IdempotencyRecord := ⟨7, "pr:7", 100, "https://host/pr/1"⟩

/-- A racing record for the same (job, effect); only the winner's
result reference survives. -/
def recB : IdempotencyRecord := ⟨7, "pr:7", 101, "https://host/pr/2"⟩

/-- A store in which job 7's branch and PR are both already recorded. -/
def resumedStore : List IdempotencyRecord :=
  [⟨7, branchKey 7, 90, "code-police/fix-b"⟩, ⟨7, prKey 7, 100, "https://host/pr/1"⟩]

/-- A fix proposal for lines 10-15 of b.py, issue 1. -/
def propA : FixProposal := ⟨1, "b.py", "old", "fixA", 10, 15, "first"⟩

/-- A second proposal for the same lines 10-15 of b.py, issue 2. -/
def propB : FixProposal := ⟨2, "b.py", "old", "fixB", 10, 15, "second"⟩

/-- Concrete pre-fix file contents. -/
def origsW : String → String := fun _ => "l1\nl2"

end Pipeline

namespace Pipeline

/-- Helper: full case characterization of the three-attempt executor in
terms of the outcomes of the first three attempts. -/
theorem retryExec_eq {α : Type} (call : Nat → CallResult α) :
    retryExec call =
      match call 1 with
      | .success v => ⟨.ok v, 1, []⟩
      | .failure f1 =>
        if f1.retryable then
          match call 2 with
          | .success v => ⟨.ok v, 2, [1]⟩
          | .failure f2 =>
            if f2.retryable then
              match call 3 with
              | .success v => ⟨.ok v, 3, [1, 2]⟩
              | .failure f3 => ⟨.error f3, 3, [1, 2]⟩
            else ⟨.error f2, 2, [1]⟩
        else ⟨.error f1, 1, []⟩ := by
  rcases h1 : call 1 with v | f1
  · simp [retryExec, retryExecAux, h1]
  · by_cases hr1 : f1.retryable
    · rcases h2 : call 2 with v | f2
      · simp [retryExec, retryExecAux, backoffDelay, h1, h2, hr1]
      · by_cases hr2 : f2.retryable
        · rcases h3 : call 3 with v | f3 <;>
            simp [retryExec, retryExecAux, backoffDelay, h1, h2, h3, hr1, hr2]
        · simp [retryExec, retryExecAux, backoffDelay, h1, h2, hr1, hr2]
    · simp [retryExec, retryExecAux, h1, hr1]

/-- C2: for every external call wrapped by the Retry Executor, at most 3
attempts are made (no 4th ever occurs); every delay observed between
consecutive attempts is at least the scheduled 1s/2s/4s backoff; after
3 failed retryable attempts the caller receives a terminal failure; and
a failure classified as fatal, on whichever attempt it occurs, is
surfaced immediately at that attempt without consuming the remaining
attempts. -/
theorem retry_executor_spec {α : Type} (call : Nat → CallResult α) :
    (retryExec call).attempts ≤ 3
    ∧ (∀ i, i < (retryExec call).delays.length →
        backoffSchedule.getD i 0 ≤ (retryExec call).delays.getD i 0)
    ∧ ((∀ k, 1 ≤ k → k ≤ 3 → ∃ f, call k = CallResult.failure f ∧ f.retryable = true) →
        ∃ f, (retryExec call).result = Except.error f ∧ (retryExec call).attempts = 3)
    ∧ (∀ k f, 1 ≤ k → k ≤ 3 →
        (∀ j, 1 ≤ j → j < k → ∃ g, call j = CallResult.failure g ∧ g.retryable = true) →
        call k = CallResult.failure f → f.retryable = false →
        (retryExec call).result = Except.error f ∧ (retryExec call).attempts = k) := by
  rcases h1 : call 1 with v | f1
  · have he : retryExec call = ⟨.ok v, 1, []⟩ := by
      simp [retryExec_eq call, h1]
    refine ⟨by simp [he], by simp [he], ?_, ?_⟩
    · intro h
      obtain ⟨f, hc, _⟩ := h 1 le_rfl (by norm_num)
      rw [h1] at hc
      exact absurd hc (by simp)
    · intro k f hk1 hk3 hpre hck hfat
      interval_cases k
      · rw [h1] at hck
        exact absurd hck (by simp)
      · obtain ⟨g, hg, _⟩ := hpre 1 le_rfl (by norm_num)
        rw [h1] at hg
        exact absurd hg (by simp)
      · obtain ⟨g, hg, _⟩ := hpre 1 le_rfl (by norm_num)
        rw [h1] at hg
        exact absurd hg (by simp)
  · by_cases hr1 : f1.retryable
    · rcases h2 : call 2 with v | f2
      · have he : retryExec call = ⟨.ok v, 2, [1]⟩ := by
          simp [retryExec_eq call, h1, hr1, h2]
        refine ⟨by simp [he], ?_, ?_, ?_⟩
        · intro i hi
          have hi0 : i = 0 := by simp [he] at hi; omega
          subst hi0
          simp [he, backoffSchedule]
        · intro h
          obtain ⟨f, hc, _⟩ := h 2 (by norm_num) (by norm_num)
          rw [h2] at hc
          exact absurd hc (by simp)
        · intro k f hk1 hk3 hpre hck hfat
          interval_cases k
          · rw [h1] at hck
            obtain rfl : f1 = f := by injection hck
            rw [hr1] at hfat
            exact absurd hfat (by simp)
          · rw [h2] at hck
            exact absurd hck (by simp)
          · obtain ⟨g, hg, _⟩ := hpre 2 (by norm_num) (by norm_num)
            rw [h2] at hg
            exact absurd hg (by simp)
      · by_cases hr2 : f2.retryable
        · rcases h3 : call 3 with v | f3
          · have he : retryExec call = ⟨.ok v, 3, [1, 2]⟩ := by
              simp [retryExec_eq call, h1, hr1, h2, hr2, h3]
            refine ⟨by simp [he], ?_, ?_, ?_⟩
            · intro i hi
              have hi01 : i = 0 ∨ i = 1 := by simp [he] at hi; omega
              rcases hi01 with rfl | rfl <;> simp [he, backoffSchedule]
            · intro h
              obtain ⟨f, hc, _⟩ := h 3 (by norm_num) le_rfl
              rw [h3] at hc
              exact absurd hc (by simp)
            · intro k f hk1 hk3 hpre hck hfat
              interval_cases k
              · rw [h1] at hck
                obtain rfl : f1 = f := by injection hck
                rw [hr1] at hfat
                exact absurd hfat (by simp)
              · rw [h2] at hck
                obtain rfl : f2 = f := by injection hck
                rw [hr2] at hfat
                exact absurd hfat (by simp)
              · rw [h3] at hck
                exact absurd hck (by simp)
          · have he : retryExec call = ⟨.error f3, 3, [1, 2]⟩ := by
              simp [retryExec_eq call, h1, hr1, h2, hr2, h3]
            refine ⟨by simp [he], ?_, ?_, ?_⟩
            · intro i hi
              have hi01 : i = 0 ∨ i = 1 := by simp [he] at hi; omega
              rcases hi01 with rfl | rfl <;> simp [he, backoffSchedule]
            · intro _
              exact ⟨f3, by simp [he], by simp [he]⟩
            · intro k f hk1 hk3 hpre hck hfat
              interval_cases k
              · rw [h1] at hck
                obtain rfl : f1 = f := by injection hck
                rw [hr1] at hfat
                exact absurd hfat (by simp)
              · rw [h2] at hck
                obtain rfl : f2 = f := by injection hck
                rw [hr2] at hfat
                exact absurd hfat (by simp)
              · rw [h3] at hck
                obtain rfl : f3 = f := by injection hck
                exact ⟨by simp [he], by simp [he]⟩
        · have he : retryExec call = ⟨.error f2, 2, [1]⟩ := by
            simp [retryExec_eq call, h1, hr1, h2, hr2]
          refine ⟨by simp [he], ?_, ?_, ?_⟩
          · intro i hi
            have hi0 : i = 0 := by simp [he] at hi; omega
            subst hi0
            simp [he, backoffSchedule]
          · intro h
            obtain ⟨f, hc, hret⟩ := h 2 (by norm_num) (by norm_num)
            rw [h2] at hc
            obtain rfl : f2 = f := by injection hc
            exact absurd hret hr2
          · intro k f hk1 hk3 hpre hck hfat
            interval_cases k
            · rw [h1] at hck
              obtain rfl : f1 = f := by injection hck
              rw [hr1] at hfat
              exact absurd hfat (by simp)
            · rw [h2] at hck
              obtain rfl : f2 = f := by injection hck
              exact ⟨by simp [he], by simp [he]⟩
            · obtain ⟨g, hg, hgret⟩ := hpre 2 (by norm_num) (by norm_num)
              rw [h2] at hg
              obtain rfl : f2 = g := by injection hg
              exact absurd hgret hr2
    · have he : retryExec call = ⟨.error f1, 1, []⟩ := by
        simp [retryExec_eq call, h1, hr1]
      refine ⟨by simp [he], by simp [he], ?_, ?_⟩
      · intro h
        obtain ⟨f, hc, hret⟩ := h 1 le_rfl (by norm_num)
        rw [h1] at hc
        obtain rfl : f1 = f := by injection hc
        exact absurd hret hr1
      · intro k f hk1 hk3 hpre hck hfat
        interval_cases k
        · rw [h1] at hck
          obtain rfl : f1 = f := by injection hck
          exact ⟨by simp [he], by simp [he]⟩
        · obtain ⟨g, hg, hgret⟩ := hpre 1 le_rfl (by norm_num)
          rw [h1] at hg
          obtain rfl : f1 = g := by injection hg
          exact absurd hgret hr1
        · obtain ⟨g, hg, hgret⟩ := hpre 1 le_rfl (by norm_num)
          rw [h1] at hg
          obtain rfl : f1 = g := by injection hg
          exact absurd hgret hr1

/-- Witness for C2: a call failing retryably every time is surfaced as a
terminal failure after exactly 3 attempts; a call failing with HTTP 404
at once is surfaced after a single attempt; and a call failing with
HTTP 500 then HTTP 404 is surfaced at the second attempt, consuming no
third attempt. -/
theorem retry_executor_spec_witness :
    (∃ f, (retryExec callAllTimeout).result = Except.error f
        ∧ (retryExec callAllTimeout).attempts = 3)
    ∧ ((retryExec callFatal404).result = Except.error (Failure.http 404)
        ∧ (retryExec callFatal404).attempts = 1)
    ∧ ((retryExec callRetryableThenFatal).result = Except.error (Failure.http 404)
        ∧ (retryExec callRetryableThenFatal).attempts = 2) :=
  ⟨(retry_executor_spec callAllTimeout).2.2.1 (fun _ _ _ => ⟨Failure.timeout, rfl, rfl⟩),
   (retry_executor_spec callFatal404).2.2.2 1 (Failure.http 404) le_rfl (by norm_num)
     (fun j hj1 hjlt => absurd hjlt (by omega)) rfl rfl,
   (retry_executor_spec callRetryableThenFatal).2.2.2 2 (Failure.http 404)
     (by norm_num) (by norm_num)
     (fun j hj1 hjlt => by
       have hj : j = 1 := by omega
       subst hj
       exact ⟨Failure.http 500, rfl, rfl⟩)
     rfl rfl⟩

end Pipeline

namespace Backend

/-- C9: the `/api/hello` handler of `src/backend/index.js` is a
constant function of the request: any two requests receive the same
response (two-run determinism and noninterference), and that response
body is exactly the `Hello from server` message. -/
theorem hello_handler_noninterference (r1 r2 : Request) :
    helloHandler r1 = helloHandler r2
    ∧ (helloHandler r1).json = [("message", "Hello from server")] :=
  ⟨rfl, rfl⟩

/-- C10: the `/status` handler of `src/backend/server.js` responds 200
with exactly the `Server is running smoothly!` JSON body, whatever the
request contains. -/
theorem status_handler_constant (r : Request) :
    (statusHandler r).status = 200
    ∧ (statusHandler r).json = [("status", "Server is running smoothly!")] :=
  ⟨rfl, rfl⟩

end Backend

namespace Pipeline

/-- Helper: a non-terminal status moves strictly forward under
`nextStatus`. -/
theorem idx_lt_nextStatus (s : Status) (h : s.isTerminal = false) :
    s.idx < (nextStatus s).idx := by
  cases s <;> first | rfl | decide | simp [Status.isTerminal] at h

/-- C4: the Orchestrator's `advance` makes only strictly forward status
transitions through the pipeline order, except that a job whose retry
budget is exhausted moves to `failed`; a `failed` job is never advanced
again. -/
theorem advance_forward_spec (j : Job) (o : StageOutcome) :
    ((advance j o).status = j.status
      ∨ (j.status.isTerminal = false ∧ (advance j o).status = nextStatus j.status
          ∧ j.status.idx < (advance j o).status.idx)
      ∨ (j.status.isTerminal = false ∧ (advance j o).status = Status.failed
          ∧ retryBudget ≤ (advance j o).retryCount))
    ∧ (j.status = Status.failed → advance j o = j) := by
  constructor
  · by_cases ht : j.status.isTerminal
    · left
      simp [advance, ht]
    · rw [Bool.not_eq_true] at ht
      cases o with
      | success =>
        right; left
        have hs : (advance j .success).status = nextStatus j.status := by
          simp [advance, ht]
        exact ⟨ht, hs, hs ▸ idx_lt_nextStatus j.status ht⟩
      | failure msg =>
        by_cases hb : retryBudget ≤ j.retryCount + 1
        · right; right
          refine ⟨ht, ?_, ?_⟩ <;> simp [advance, ht, hb]
        · left
          simp [advance, ht, hb]
  · intro hf
    simp [advance, hf, Status.isTerminal]

/-- Witness for C4: a failed job is returned unchanged by `advance`. -/
theorem advance_forward_spec_witness : advance failedJob StageOutcome.success = failedJob :=
  (advance_forward_spec failedJob StageOutcome.success).2 rfl

/-- C8: a report with zero issues drives the zero-issues (success)
notification outcome, never the issues-found outcome, and a well-formed
analysis response whose candidates all validate away is still a
successful Analyzer stage result, not an error. -/
theorem zero_issues_spec (report : AnalysisReport)
    (pub : Option (Except ConflictError String))
    (h : report.issues = []) :
    notifyOutcome report pub = NotifyOutcome.zeroIssues
    ∧ notifyOutcome report pub ≠ NotifyOutcome.issuesFound
    ∧ ∀ items, parseIssues items = [] →
        analyzeStage (LlmResponse.issuesArray items) = StageOutcome.success := by
  refine ⟨?_, ?_, fun _ _ => rfl⟩ <;> simp [notifyOutcome, h]

/-- Witness for C8: the zero-issue report yields the zero-issues
outcome, and an empty candidate array is a successful stage. -/
theorem zero_issues_spec_witness :
    notifyOutcome emptyReport none = NotifyOutcome.zeroIssues
    ∧ notifyOutcome emptyReport none ≠ NotifyOutcome.issuesFound
    ∧ analyzeStage (LlmResponse.issuesArray []) = StageOutcome.success :=
  ⟨(zero_issues_spec emptyReport none rfl).1,
   (zero_issues_spec emptyReport none rfl).2.1,
   (zero_issues_spec emptyReport none rfl).2.2 [] rfl⟩

/-- C7: a diverged base is reported as a ConflictError carrying the
conflicting file and the base and head SHAs; the conflict is not
retried automatically; the Notifier's outcome is the conflict outcome;
and the job ends Completed-with-warning, never Failed. -/
theorem publish_conflict_spec (f b hd : String) (report : AnalysisReport)
    (delivered : Bool) (h : report.issues ≠ []) :
    publishResult (HostOutcome.diverged f b hd) = Except.error ⟨f, b, hd⟩
    ∧ (PublishFailure.conflict ⟨f, b, hd⟩).retryableFailure = false
    ∧ notifyOutcome report (some (publishResult (HostOutcome.diverged f b hd)))
        = NotifyOutcome.publishConflict ⟨f, b, hd⟩
    ∧ finalizeJob
        (notifyOutcome report (some (publishResult (HostOutcome.diverged f b hd))))
        delivered = FinalStatus.completedWithWarning
    ∧ finalizeJob
        (notifyOutcome report (some (publishResult (HostOutcome.diverged f b hd))))
        delivered ≠ FinalStatus.failed := by
  have hne : report.issues.isEmpty = false := by
    cases hr : report.issues with
    | nil => exact absurd hr h
    | cons a l => rfl
  refine ⟨rfl, rfl, ?_, ?_, ?_⟩ <;>
    simp [publishResult, notifyOutcome, finalizeJob, hne]

/-- Witness for C7: a concrete diverged publish on a one-issue report
produces the conflict outcome and a Completed-with-warning final state. -/
theorem publish_conflict_spec_witness :
    publishResult (HostOutcome.diverged "b.py" "sha-base" "sha-head")
        = Except.error ⟨"b.py", "sha-base", "sha-head"⟩
    ∧ (PublishFailure.conflict ⟨"b.py", "sha-base", "sha-head"⟩).retryableFailure = false
    ∧ notifyOutcome oneIssueReport
        (some (publishResult (HostOutcome.diverged "b.py" "sha-base" "sha-head")))
        = NotifyOutcome.publishConflict ⟨"b.py", "sha-base", "sha-head"⟩
    ∧ finalizeJob
        (notifyOutcome oneIssueReport
          (some (publishResult (HostOutcome.diverged "b.py" "sha-base" "sha-head"))))
        true = FinalStatus.completedWithWarning
    ∧ finalizeJob
        (notifyOutcome oneIssueReport
          (some (publishResult (HostOutcome.diverged "b.py" "sha-base" "sha-head"))))
        true ≠ FinalStatus.failed :=
  publish_conflict_spec "b.py" "sha-base" "sha-head" oneIssueReport true (by decide)

end Pipeline

namespace Pipeline

/-- Helper: a record whose effect key differs is transparent to lookup. -/
theorem lookupRec_cons_ne (s : List IdempotencyRecord) (r : IdempotencyRecord)
    (jobId : Nat) (key : String) (h : r.effectKey ≠ key) :
    lookupRec (r :: s) jobId key = lookupRec s jobId key := by
  have hp : (r.jobId == jobId && r.effectKey == key) = false := by
    have : (r.effectKey == key) = false := beq_eq_false_iff_ne.mpr h
    simp [this]
  simp [lookupRec, List.find?_cons, hp]

/-- Helper: the branch and PR idempotency keys of a job differ. -/
theorem branchKey_ne_prKey (jobId : Nat) : branchKey jobId ≠ prKey jobId := by
  intro h
  have hlen := congrArg String.length h
  have h1 : ("branch:" : String).length = 7 := rfl
  have h2 : ("pr:" : String).length = 3 := rfl
  rw [branchKey, prKey, String.length_append, String.length_append, h1, h2] at hlen
  omega

/-- C5: publishing a job whose branch/PR creation is already recorded
in the Idempotency Store performs no second branch creation and no
second PR creation; the recorded result references are reused. -/
theorem publish_idempotent (jobId now : Nat) (bn pu : String)
    (s : List IdempotencyRecord) :
    (∀ rb, lookupRec s jobId (branchKey jobId) = some rb →
        (∀ n, GitEffect.createBranch n ∉ (publish jobId now bn pu s).effects)
        ∧ (publish jobId now bn pu s).branchRef = rb.resultRef)
    ∧ (∀ rp, lookupRec s jobId (prKey jobId) = some rp →
        (∀ u, GitEffect.openPullRequest u ∉ (publish jobId now bn pu s).effects)
        ∧ (publish jobId now bn pu s).prRef = rp.resultRef) := by
  constructor
  · intro rb hb
    rcases hp : lookupRec s jobId (prKey jobId) with _ | rp
    · constructor
      · intro n
        simp [publish, hb, hp]
      · simp [publish, hb, hp]
    · constructor
      · intro n
        simp [publish, hb, hp]
      · simp [publish, hb, hp]
  · intro rp hp
    rcases hb : lookupRec s jobId (branchKey jobId) with _ | rb
    · have hstep : lookupRec
          (putIfAbsent s ⟨jobId, branchKey jobId, now, bn⟩).1 jobId (prKey jobId)
          = some rp := by
        simp only [putIfAbsent, lookupRec] at hb ⊢
        rw [hb]
        exact (lookupRec_cons_ne s _ jobId (prKey jobId)
          (branchKey_ne_prKey jobId)).trans hp
      constructor
      · intro u
        simp [publish, hb, hstep]
      · simp [publish, hb, hstep]
    · constructor
      · intro u
        simp [publish, hb, hp]
      · simp [publish, hb, hp]

/-- Witness for C5: with job 7's branch and PR both recorded, a rerun
of publish performs no Git-host effect and returns the stored
references. -/
theorem publish_idempotent_witness :
    (GitEffect.createBranch "code-police/fix-x" ∉
        (publish 7 200 "code-police/fix-x" "https://host/pr/9" resumedStore).effects)
    ∧ (publish 7 200 "code-police/fix-x" "https://host/pr/9" resumedStore).branchRef
        = "code-police/fix-b"
    ∧ (GitEffect.openPullRequest "https://host/pr/9" ∉
        (publish 7 200 "code-police/fix-x" "https://host/pr/9" resumedStore).effects)
    ∧ (publish 7 200 "code-police/fix-x" "https://host/pr/9" resumedStore).prRef
        = "https://host/pr/1" :=
  ⟨((publish_idempotent 7 200 "code-police/fix-x" "https://host/pr/9" resumedStore).1
      ⟨7, branchKey 7, 90, "code-police/fix-b"⟩ rfl).1 "code-police/fix-x",
   ((publish_idempotent 7 200 "code-police/fix-x" "https://host/pr/9" resumedStore).1
      ⟨7, branchKey 7, 90, "code-police/fix-b"⟩ rfl).2,
   ((publish_idempotent 7 200 "code-police/fix-x" "https://host/pr/9" resumedStore).2
      ⟨7, prKey 7, 100, "https://host/pr/1"⟩ rfl).1 "https://host/pr/9",
   ((publish_idempotent 7 200 "code-police/fix-x" "https://host/pr/9" resumedStore).2
      ⟨7, prKey 7, 100, "https://host/pr/1"⟩ rfl).2⟩

/-- C6: every reachable Idempotency Store state holds at most one
record per (jobId, effectKey) pair, and when two writers race on the
same absent key, the first write inserts (and performs the effect)
while the second is told the effect is already done and can read the
winner's record, the store being left unchanged. -/
theorem idempotency_store_spec :
    (∀ s, ReachableStore s → ∀ jobId key,
        (s.filter (fun r => r.jobId == jobId && r.effectKey == key)).length ≤ 1)
    ∧ (∀ s rA rB, rA.jobId = rB.jobId → rA.effectKey = rB.effectKey →
        lookupRec s rA.jobId rA.effectKey = none →
        (putIfAbsent s rA).2 = PutResult.inserted
        ∧ (putIfAbsent (putIfAbsent s rA).1 rB).2 = PutResult.alreadyDone rA
        ∧ (putIfAbsent (putIfAbsent s rA).1 rB).1 = (putIfAbsent s rA).1) := by
  constructor
  · intro s hs
    induction hs with
    | empty => intro jobId key; simp
    | put s r _ ih =>
      intro jobId key
      rcases hl : lookupRec s r.jobId r.effectKey with _ | ex
      · simp only [putIfAbsent, hl]
        by_cases hm : (r.jobId == jobId && r.effectKey == key) = true
        · have hall : ∀ x ∈ s, ¬(x.jobId == jobId && x.effectKey == key) = true := by
            intro x hx
            have hl' : s.find? (fun x => x.jobId == r.jobId && x.effectKey == r.effectKey)
                = none := hl
            have hnone := List.find?_eq_none.mp hl' x hx
            simp only [Bool.and_eq_true] at hm
            obtain ⟨hj, hk⟩ := hm
            rw [eq_of_beq hj, eq_of_beq hk] at hnone
            exact hnone
          have hfilter : s.filter (fun x => x.jobId == jobId && x.effectKey == key) = [] :=
            List.filter_eq_nil_iff.mpr hall
          simp [List.filter_cons, hm, hfilter]
        · simp only [List.filter_cons, if_neg hm]
          exact ih jobId key
      · simp only [putIfAbsent, hl]
        exact ih jobId key
  · intro s rA rB hj hk habs
    have h1 : putIfAbsent s rA = (rA :: s, .inserted) := by
      simp [putIfAbsent, habs]
    have hfound : lookupRec (rA :: s) rB.jobId rB.effectKey = some rA := by
      have hp : (rA.jobId == rB.jobId && rA.effectKey == rB.effectKey) = true := by
        simp [hj, hk]
      simp [lookupRec, List.find?_cons, hp]
    refine ⟨by rw [h1], ?_, ?_⟩ <;> rw [h1] <;> simp [putIfAbsent, hfound]

/-- Witness for C6: an empty store satisfies the uniqueness bound, and
a concrete race on job 7's PR effect resolves to one insert and one
already-done answer carrying the winner's record. -/
theorem idempotency_store_spec_witness :
    (([] : List IdempotencyRecord).filter
        (fun r => r.jobId == 7 && r.effectKey == "pr:7")).length ≤ 1
    ∧ (putIfAbsent [] recA).2 = PutResult.inserted
    ∧ (putIfAbsent (putIfAbsent [] recA).1 recB).2 = PutResult.alreadyDone recA
    ∧ (putIfAbsent (putIfAbsent [] recA).1 recB).1 = (putIfAbsent [] recA).1 :=
  ⟨idempotency_store_spec.1 [] ReachableStore.empty 7 "pr:7",
   (idempotency_store_spec.2 [] recA recB rfl rfl rfl).1,
   (idempotency_store_spec.2 [] recA recB rfl rfl rfl).2.1,
   (idempotency_store_spec.2 [] recA recB rfl rfl rfl).2.2⟩

end Pipeline

namespace Pipeline

/-- Helper: a candidate validates to `none` exactly when a required
field is missing or its severity/type lies outside the enumerated set. -/
theorem validateIssue_eq_none_iff (c : CandidateIssue) :
    validateIssue c = none ↔
      c.id = none ∨ c.severity = none ∨ c.issueType = none ∨ c.file = none
      ∨ c.line = none ∨ c.column = none ∨ c.description = none
      ∨ c.suggestion = none ∨ c.fixable = none
      ∨ (∃ s, c.severity = some s ∧ validSeverities.contains s = false)
      ∨ (∃ t, c.issueType = some t ∧ validTypes.contains t = false) := by
  obtain ⟨f1, f2, f3, f4, f5, f6, f7, f8, f9⟩ := c
  rcases f1 with _ | v1
  · simp [validateIssue]
  rcases f2 with _ | v2
  · simp [validateIssue]
  rcases f3 with _ | v3
  · simp [validateIssue]
  rcases f4 with _ | v4
  · simp [validateIssue]
  rcases f5 with _ | v5
  · simp [validateIssue]
  rcases f6 with _ | v6
  · simp [validateIssue]
  rcases f7 with _ | v7
  · simp [validateIssue]
  rcases f8 with _ | v8
  · simp [validateIssue]
  rcases f9 with _ | v9
  · simp [validateIssue]
  simp only [validateIssue, Option.bind_eq_bind, Option.some_bind, reduceCtorEq,
    false_or, Option.some.injEq, exists_eq_left']
  by_cases hc : (validSeverities.contains v2 && validTypes.contains v3) = true
  · rw [if_pos hc]
    rw [Bool.and_eq_true] at hc
    obtain ⟨hs, ht⟩ := hc
    have hs' : v2 ∈ validSeverities := by simpa using hs
    have ht' : v3 ∈ validTypes := by simpa using ht
    simp [hs, ht, hs', ht']
  · rw [if_neg hc]
    simp only [Bool.and_eq_true, not_and_or, Bool.not_eq_true] at hc
    simp only [eq_self_iff_true, true_iff]
    tauto

/-- Helper: a validated issue keeps every field of its candidate
verbatim; nothing is defaulted. -/
theorem validateIssue_fields (c : CandidateIssue) (i : Issue)
    (h : validateIssue c = some i) :
    c.id = some i.id ∧ c.severity = some i.severity
    ∧ c.issueType = some i.issueType ∧ c.file = some i.file
    ∧ c.line = some i.line ∧ c.column = some i.column
    ∧ c.description = some i.description ∧ c.suggestion = some i.suggestion
    ∧ c.fixable = some i.fixable
    ∧ validSeverities.contains i.severity = true
    ∧ validTypes.contains i.issueType = true := by
  obtain ⟨f1, f2, f3, f4, f5, f6, f7, f8, f9⟩ := c
  rcases f1 with _ | v1
  · simp [validateIssue] at h
  rcases f2 with _ | v2
  · simp [validateIssue] at h
  rcases f3 with _ | v3
  · simp [validateIssue] at h
  rcases f4 with _ | v4
  · simp [validateIssue] at h
  rcases f5 with _ | v5
  · simp [validateIssue] at h
  rcases f6 with _ | v6
  · simp [validateIssue] at h
  rcases f7 with _ | v7
  · simp [validateIssue] at h
  rcases f8 with _ | v8
  · simp [validateIssue] at h
  rcases f9 with _ | v9
  · simp [validateIssue] at h
  simp only [validateIssue, Option.bind_eq_bind, Option.some_bind] at h
  by_cases hc : (validSeverities.contains v2 && validTypes.contains v3) = true
  · rw [if_pos hc] at h
    rw [Bool.and_eq_true] at hc
    obtain ⟨hs, ht⟩ := hc
    cases h
    simp_all
  · rw [if_neg hc] at h
    exact absurd h (by simp)

/-- C3: each candidate issue that fails validation (missing required
field or out-of-range severity/type) is dropped individually while
every other valid issue from the same response is retained, and a
validated issue's fields are exactly the candidate's fields — nothing
is silently defaulted. -/
theorem analyzer_validation_spec :
    (∀ l1 c l2, validateIssue c = none →
        parseIssues (l1 ++ c :: l2) = parseIssues l1 ++ parseIssues l2)
    ∧ (∀ l1 c l2 i, validateIssue c = some i →
        parseIssues (l1 ++ c :: l2) = parseIssues l1 ++ i :: parseIssues l2)
    ∧ (∀ c i, validateIssue c = some i →
        c.id = some i.id ∧ c.severity = some i.severity
        ∧ c.issueType = some i.issueType ∧ c.file = some i.file
        ∧ c.line = some i.line ∧ c.column = some i.column
        ∧ c.description = some i.description ∧ c.suggestion = some i.suggestion
        ∧ c.fixable = some i.fixable) := by
  refine ⟨?_, ?_, ?_⟩
  · intro l1 c l2 h
    simp [parseIssues, List.filterMap_append, List.filterMap_cons, h]
  · intro l1 c l2 i h
    simp [parseIssues, List.filterMap_append, List.filterMap_cons, h]
  · intro c i h
    have hf := validateIssue_fields c i h
    exact ⟨hf.1, hf.2.1, hf.2.2.1, hf.2.2.2.1, hf.2.2.2.2.1, hf.2.2.2.2.2.1,
      hf.2.2.2.2.2.2.1, hf.2.2.2.2.2.2.2.1, hf.2.2.2.2.2.2.2.2.1⟩

/-- Witness for C3: dropping the one invalid candidate of a concrete
response keeps both valid neighbours, and a concrete valid candidate's
parsed fields are its own. -/
theorem analyzer_validation_spec_witness :
    parseIssues ([goodCandidate] ++ badCandidate :: [goodCandidate])
      = parseIssues [goodCandidate] ++ parseIssues [goodCandidate]
    ∧ goodCandidate.id = some goodIssue.id :=
  ⟨analyzer_validation_spec.1 [goodCandidate] badCandidate [goodCandidate] rfl,
   (analyzer_validation_spec.2.2 goodCandidate goodIssue rfl).1⟩

end Pipeline

namespace Pipeline

/-- Helper: overlap of line ranges is symmetric. -/
theorem overlaps_symm (p q : FixProposal) : overlaps p q = overlaps q p := by
  unfold overlaps
  rw [Bool.and_comm]

/-- Helper: inserting a proposal into a pairwise non-overlapping set of
kept fixes keeps it pairwise non-overlapping. -/
theorem pairwise_insertFix (acc : List FixProposal) (p : FixProposal)
    (h : acc.Pairwise (fun a b => overlaps a b = false)) :
    (insertFix acc p).Pairwise (fun a b => overlaps a b = false) := by
  unfold insertFix
  split
  · apply List.pairwise_append.mpr
    refine ⟨h.filter _, List.pairwise_singleton _ _, ?_⟩
    intro a ha b hb
    rw [List.mem_singleton] at hb
    subst hb
    have hna := (List.mem_filter.mp ha).2
    rw [overlaps_symm]
    simpa using hna
  · exact h

/-- Helper: the overlap-resolution fold preserves pairwise
non-overlap of the accumulator. -/
theorem pairwise_foldl_insertFix (l : List FixProposal) (acc : List FixProposal)
    (h : acc.Pairwise (fun a b => overlaps a b = false)) :
    (l.foldl insertFix acc).Pairwise (fun a b => overlaps a b = false) := by
  induction l generalizing acc with
  | nil => exact h
  | cons p l ih => exact ih _ (pairwise_insertFix acc p h)

/-- Helper: folding sorted proposals through overlap resolution keeps
the kept fixes sorted by ascending start line. -/
theorem sorted_foldl_insertFix : ∀ (l acc : List FixProposal),
    acc.Pairwise byStartLine →
    (∀ a ∈ acc, ∀ b ∈ l, byStartLine a b) →
    l.Pairwise byStartLine →
    (l.foldl insertFix acc).Pairwise byStartLine := by
  intro l
  induction l with
  | nil => intro acc hacc _ _; exact hacc
  | cons p l ih =>
    intro acc hacc hcross hl
    obtain ⟨hp, hl'⟩ := List.pairwise_cons.mp hl
    rw [List.foldl_cons]
    apply ih
    · unfold insertFix
      split
      · apply List.pairwise_append.mpr
        refine ⟨hacc.filter _, List.pairwise_singleton _ _, ?_⟩
        intro a ha b hb
        rw [List.mem_singleton] at hb
        subst hb
        exact hcross a (List.mem_of_mem_filter ha) b (List.mem_cons_self b l)
      · exact hacc
    · intro a ha b hb
      unfold insertFix at ha
      split at ha
      · rcases List.mem_append.mp ha with ha' | ha'
        · exact hcross a (List.mem_of_mem_filter ha') b (List.mem_cons_of_mem p hb)
        · rw [List.mem_singleton] at ha'
          subst ha'
          exact hp b hb
      · exact hcross a ha b (List.mem_cons_of_mem p hb)
    · exact hl'

/-- Helper: filtering a mapped list of consolidated files by path
counts one hit per occurrence in a duplicate-free file list. -/
theorem filter_path_map_length (f : String) (l : List String) (hn : l.Nodup)
    (mk : String → ConsolidatedFile) (hmk : ∀ g, (mk g).path = g) :
    ((l.map mk).filter (fun c => c.path == f)).length
      = if f ∈ l then 1 else 0 := by
  induction l with
  | nil => simp
  | cons g l ih =>
    obtain ⟨hg, hn'⟩ := List.nodup_cons.mp hn
    rw [List.map_cons, List.filter_cons]
    by_cases hgf : g = f
    · subst hgf
      have hc : ((mk g).path == g) = true := by simp [hmk g]
      rw [if_pos hc]
      have hnotmem : g ∉ l := hg
      rw [List.length_cons, ih hn']
      simp [hnotmem]
    · have hc : ((mk g).path == f) = false := by
        rw [hmk g]
        exact beq_eq_false_iff_ne.mpr hgf
      rw [if_neg (by simp [hc]), ih hn']
      have hiff : (f ∈ l) ↔ (f ∈ g :: l) := by
        rw [List.mem_cons]
        constructor
        · exact Or.inr
        · rintro (rfl | h)
          · exact absurd rfl hgf
          · exact h
      exact if_congr hiff rfl rfl

/-- Helper: of two overlapping proposals for the same file, exactly the
one with the later issue id survives consolidation. -/
theorem consolidateFile_pair (orig : String) (p q : FixProposal)
    (hf : p.file = q.file) (hov : overlaps p q = true) (hid : p.issueId < q.issueId) :
    (consolidateFile q.file orig [p, q]).appliedIssueIds = [q.issueId] := by
  have hovqp : overlaps q p = true := (overlaps_symm q p).trans hov
  have hfilter : [p, q].filter (fun x => x.file == q.file) = [p, q] := by
    simp [List.filter_cons, hf]
  have hnotid : ¬(q.issueId < p.issueId) := by omega
  have happ : (consolidateFile q.file orig [p, q]).appliedFixes
      = (sortByStart [p, q]).foldl insertFix [] := by
    simp [consolidateFile, hfilter]
  by_cases hle : p.startLine ≤ q.startLine
  · have hsort : sortByStart [p, q] = [p, q] := by
      simp [sortByStart, List.insertionSort, List.orderedInsert, byStartLine, hle]
    have hfix : (consolidateFile q.file orig [p, q]).appliedFixes = [q] := by
      rw [happ, hsort]
      simp [insertFix, hovqp, hid]
    simp [ConsolidatedFile.appliedIssueIds, hfix]
  · have hsort : sortByStart [p, q] = [q, p] := by
      simp [sortByStart, List.insertionSort, List.orderedInsert, byStartLine, hle]
    have hfix : (consolidateFile q.file orig [p, q]).appliedFixes = [q] := by
      rw [happ, hsort]
      simp [insertFix, hov, hnotid]
    simp [ConsolidatedFile.appliedIssueIds, hfix]

/-- C1: consolidation yields exactly one ConsolidatedFile per file that
has a proposal; the applied fixes of every consolidated file are kept
in ascending start-line order (the processing order) and no two of them
overlap; and of two overlapping proposals for one file, the one with
the later issue id wins while the earlier is discarded. -/
theorem consolidation_spec (originals : String → String) (props : List FixProposal) :
    (∀ f, ((consolidate originals props).filter (fun c => c.path == f)).length
        = if f ∈ props.map (·.file) then 1 else 0)
    ∧ (∀ cf, cf ∈ consolidate originals props →
        cf.appliedFixes.Pairwise (fun a b => overlaps a b = false)
        ∧ cf.appliedFixes.Pairwise byStartLine)
    ∧ (∀ p q, p.file = q.file → overlaps p q = true → p.issueId < q.issueId →
        (consolidateFile q.file (originals q.file) [p, q]).appliedIssueIds
          = [q.issueId]) := by
  refine ⟨?_, ?_, fun p q hf hov hid => consolidateFile_pair _ p q hf hov hid⟩
  · intro f
    have h := filter_path_map_length f ((props.map (·.file)).dedup)
        (List.nodup_dedup _) (fun g => consolidateFile g (originals g) props)
        (fun _ => rfl)
    simpa [consolidate, List.mem_dedup] using h
  · intro cf hcf
    obtain ⟨g, _, rfl⟩ := List.mem_map.mp hcf
    constructor
    · exact pairwise_foldl_insertFix _ _ List.Pairwise.nil
    · exact sorted_foldl_insertFix _ [] List.Pairwise.nil
        (fun a ha => absurd ha (List.not_mem_nil a))
        (List.sorted_insertionSort byStartLine _)

/-- Witness for C1: the spec's b.py scenario — two proposals both
targeting lines 10-15 — consolidates to a single file applying only
the later issue id. -/
theorem consolidation_spec_witness :
    ((consolidate origsW [propA, propB]).filter (fun c => c.path == "b.py")).length = 1
    ∧ (consolidateFile "b.py" (origsW "b.py") [propA, propB]).appliedIssueIds = [2] :=
  ⟨((consolidation_spec origsW [propA, propB]).1 "b.py").trans (by decide),
   (consolidation_spec origsW [propA, propB]).2.2 propA propB rfl (by decide) (by decide)⟩

end Pipeline
